import Mathlib

/-
Verification development for the guided-component-architect backend
(`backend/architect.py`).  The Python source is shallowly embedded below:
the Validator's five check routines and the Orchestrator's retry loop are
translated into executable Lean definitions over `List Char` / `String`,
and the claims about the spec are settled as theorems about these
definitions.  The external LLM call (`generate_component`) is abstracted
as an oracle `gen : Nat → String → String` mapping the attempt index and
the current feedback string to the candidate text it returns; everything
else follows the Python line by line.
-/

/-! ## Character and string helpers

Several characters (apostrophe, backtick, braces) are built from their
code points so that message strings can be assembled without embedding
them in literals. -/

def sqC : Char := Char.ofNat 39

def btC : Char := Char.ofNat 96

def obC : Char := Char.ofNat 123

def cbC : Char := Char.ofNat 125

def dqC : Char := '\"'

def aposS : String := String.singleton sqC

/-- The markdown fence marker, three backticks. -/
def fenceStr : String := String.mk [btC, btC, btC]

/-- Python `\s` for the ASCII range: space, tab, newline, carriage return,
vertical tab, form feed. -/
def pyWs : List Char := [' ', '\t', '\n', '\r', Char.ofNat 11, Char.ofNat 12]

/-- Python substring test `needle in hay`. -/
def occursIn (needle : List Char) : List Char → Bool
  | [] => needle.isEmpty
  | c :: t => needle.isPrefixOf (c :: t) || occursIn needle t

/-- Python `str.strip()` (no argument): drop leading and trailing whitespace. -/
def pyStripL (l : List Char) : List Char :=
  ((l.dropWhile (pyWs.contains ·)).reverse.dropWhile (pyWs.contains ·)).reverse

/-- Python `str.strip(cs)`: drop leading and trailing characters from `cs`. -/
def pyStripChars (cs : List Char) (l : List Char) : List Char :=
  ((l.dropWhile (cs.contains ·)).reverse.dropWhile (cs.contains ·)).reverse

/-- Python `str.rstrip(cs)`: drop trailing characters from `cs`. -/
def pyRstrip (cs : List Char) (l : List Char) : List Char :=
  (l.reverse.dropWhile (cs.contains ·)).reverse

def pySplitGo : List Char → List Char → List (List Char)
  | [], acc => if acc.isEmpty then [] else [acc.reverse]
  | c :: t, acc =>
      if pyWs.contains c then
        if acc.isEmpty then pySplitGo t [] else acc.reverse :: pySplitGo t []
      else pySplitGo t (c :: acc)

/-- Python `str.split()` (no argument): split on whitespace runs,
discarding empty pieces. -/
def pySplitL (l : List Char) : List (List Char) := pySplitGo l []

def lowerL (l : List Char) : List Char := l.map Char.toLower

def upperStr (s : String) : String := String.mk (s.data.map Char.toUpper)

/-- Lexicographic-by-code-point comparison, Python string `<=`. -/
def charListLe : List Char → List Char → Bool
  | [], _ => true
  | _ :: _, [] => false
  | a :: as, b :: bs => if a < b then true else if b < a then false else charListLe as bs

def insertSortedStr (s : String) : List String → List String
  | [] => [s]
  | t :: ts => if charListLe s.data t.data then s :: t :: ts else t :: insertSortedStr s ts

/-- Python `sorted` on a list of strings. -/
def pySortedStr : List String → List String
  | [] => []
  | s :: ts => insertSortedStr s (pySortedStr ts)

/-- Python `repr` of a list of strings (as it appears in f-strings via
`{sorted(...)}`), assuming the strings contain no apostrophes. -/
def pyReprStrList (l : List String) : String :=
  "[" ++ String.intercalate ", " (l.map (fun s => aposS ++ s ++ aposS)) ++ "]"

/-- Python `repr` of a list of single-character strings, as produced by
`f"... {stack}"` in the bracket check. -/
def pyReprCharList (l : List Char) : String :=
  "[" ++ String.intercalate ", " (l.map (fun c => aposS ++ String.singleton c ++ aposS)) ++ "]"

/-! ## Data model -/

/-- The `typography` record of the design-token file:
`font-family-sans` and `font-family-mono`. -/
structure Typography where
  sans : String
  mono : String
deriving DecidableEq

/-- `DesignTokenSet`: the token configuration consumed by the Validator.
`colors` and `borders` model the Python dicts as insertion-ordered
association lists (only their `.values()` are ever used). -/
structure DesignTokenSet where
  colors : List (String × String)
  borders : List (String × String)
  typography : Typography
deriving DecidableEq

/-- `ValidationError` from `architect.py`: rule identifier, message and
severity, all strings (severity is `"error"` or `"warning"`). -/
structure ValidationError where
  rule : String
  message : String
  severity : String
deriving DecidableEq

/-- `ValidationError.__str__`: `[{severity.upper()}] {rule}: {message}`. -/
def ValidationError.toStr (e : ValidationError) : String :=
  "[" ++ upperStr e.severity ++ "] " ++ e.rule ++ ": " ++ e.message

/-! ## Bracket-balance check (`_check_bracket_balance`) -/

def opensL : List Char := ['(', obC, '[']

def closesL : List Char := [')', cbC, ']']

def stringQuotes : List Char := [dqC, sqC, btC]

/-- The Python dict `pairs = {")": "(", "}": "{", "]": "["}`. -/
def pairOf (c : Char) : Char :=
  if c == ')' then '(' else if c == ']' then '[' else obC

/-- Matching closing bracket of an opening bracket. -/
def closeOf (c : Char) : Char :=
  if c == '(' then ')' else if c == '[' then ']' else cbC

def unmatchedMsg (c : Char) (i : Nat) : String :=
  "Unmatched closing bracket " ++ aposS ++ String.singleton c ++ aposS ++ " at position " ++ toString i

/-- The `f"Unclosed brackets: {stack}"` message; the Lean scanner keeps the
stack top-first, while Python prints it bottom-first, hence the reverse. -/
def unclosedMsg (stack : List Char) : String :=
  "Unclosed brackets: " ++ pyReprCharList stack.reverse

/-- The character loop of `_check_bracket_balance`.  State: remaining
characters, `in_string`/`string_char` combined as an `Option Char`, the
bracket stack (top-first; Python appends at the end), and the position
counter `i`.  Inside a string a backslash that is not the last character
skips the next character (Python: `ch == "\\" and i + 1 < len(code)`);
the check stops at the first unmatched closing bracket and reports any
still-open stack at end of text. -/
def bbLoop : List Char → Option Char → List Char → Nat → List ValidationError
  | [], _, stack, _ =>
      if stack.isEmpty then []
      else [⟨"SYNTAX", unclosedMsg stack, "error"⟩]
  | [c], some q, stack, i =>
      if c == q then bbLoop [] none stack (i + 1)
      else bbLoop [] (some q) stack (i + 1)
  | c :: c2 :: cs, some q, stack, i =>
      if c == '\\' then bbLoop cs (some q) stack (i + 2)
      else if c == q then bbLoop (c2 :: cs) none stack (i + 1)
      else bbLoop (c2 :: cs) (some q) stack (i + 1)
  | c :: cs, none, stack, i =>
      if stringQuotes.contains c then bbLoop cs (some c) stack (i + 1)
      else if opensL.contains c then bbLoop cs none (c :: stack) (i + 1)
      else if closesL.contains c then
        if stack.isEmpty || stack.head? != some (pairOf c) then
          [⟨"SYNTAX", unmatchedMsg c i, "error"⟩]
        else bbLoop cs none stack.tail (i + 1)
      else bbLoop cs none stack (i + 1)

def _check_bracket_balance (code : String) : List ValidationError :=
  bbLoop code.data none [] 0

/-- The sequence of bracket characters of a text that lie outside quoted
or back-quoted string literals, extracted with the same quote state
machine as the scanner. -/
def strippedBrackets : List Char → Option Char → List Char
  | [], _ => []
  | [c], some q =>
      if c == q then strippedBrackets [] none
      else strippedBrackets [] (some q)
  | c :: c2 :: cs, some q =>
      if c == '\\' then strippedBrackets cs (some q)
      else if c == q then strippedBrackets (c2 :: cs) none
      else strippedBrackets (c2 :: cs) (some q)
  | c :: cs, none =>
      if stringQuotes.contains c then strippedBrackets cs (some c)
      else if opensL.contains c || closesL.contains c then c :: strippedBrackets cs none
      else strippedBrackets cs none

/-- Bracket characters of a text outside string literals. -/
def bracketsOf (code : String) : List Char := strippedBrackets code.data none

/-- Outcome of the pure bracket-stack machine: either a mismatching
close was hit, or the scan finished with a final stack. -/
inductive DyckOut where
  | mismatch (c : Char) : DyckOut
  | closed (stack : List Char) : DyckOut
deriving DecidableEq

/-- Pure stack machine on a bracket-only sequence (stack is top-first). -/
def dyckScan : List Char → List Char → DyckOut
  | [], st => .closed st
  | c :: cs, st =>
      if opensL.contains c then dyckScan cs (c :: st)
      else
        match st with
        | [] => .mismatch c
        | t :: st' => if t == pairOf c then dyckScan cs st' else .mismatch c

/-- BalancedBr (Dyck) sequences over the three bracket kinds:
`S → ε | o S (closeOf o) S` for `o` an opening bracket. -/
inductive BalancedBr : List Char → Prop
  | nil : BalancedBr []
  | node {c : Char} {a b : List Char} :
      c ∈ opensL → BalancedBr a → BalancedBr b → BalancedBr (c :: a ++ closeOf c :: b)

/-! ## Color compliance (`_check_color_compliance`) -/

def isHexDigitC (c : Char) : Bool :=
  c.isDigit || ('a' ≤ c && c ≤ 'f') || ('A' ≤ c && c ≤ 'F')

/-- Python `\w` over the ASCII range. -/
def isWordChar (c : Char) : Bool := c.isAlphanum || c == '_'

/-- `re.findall(r"#([0-9a-fA-F]{3,8})\b", code)`: at each `#`, the run of
hex digits after it matches iff its length is between 3 and 8 and the
character after the run (if any) is not a word character (the `{3,8}` is
greedy, and any shorter match is blocked by `\b` landing on a hex
digit).  Matches are non-overlapping, so scanning resumes after the
digits.  Fuel (initially the text length) only makes the recursion
structural; every step consumes at least one character. -/
def hexScanGo : Nat → List Char → List (List Char)
  | 0, _ => []
  | _ + 1, [] => []
  | fuel + 1, c :: rest =>
      if c == '#' then
        let ds := rest.takeWhile isHexDigitC
        if 3 ≤ ds.length && ds.length ≤ 8 &&
            (match rest.drop ds.length with
             | [] => true
             | d :: _ => !isWordChar d) then
          ds :: hexScanGo fuel (rest.drop ds.length)
        else hexScanGo fuel rest
      else hexScanGo fuel rest

def hexScan (code : List Char) : List (List Char) := hexScanGo code.length code

def colorMsg (full : List Char) (allowed_colors : List String) : String :=
  "Color " ++ aposS ++ String.mk full ++ aposS ++ " is NOT in the design system. Allowed: "
    ++ pyReprStrList (pySortedStr allowed_colors.eraseDups)

/-- The loop body of `_check_color_compliance` for one extracted hex
digit run: normalize 3-digit short form by digit duplication, then test
case-insensitive membership in the allowed color values. -/
def colorHexCheck (allowed_colors : List String) (hex_val : List Char) :
    Option ValidationError :=
  let full := if hex_val.length == 3 then '#' :: hex_val.flatMap (fun c => [c, c])
              else '#' :: hex_val
  if (allowed_colors.map (fun c => lowerL c.data)).contains (lowerL full) then none
  else some ⟨"DESIGN_TOKEN_COLOR", colorMsg full allowed_colors, "error"⟩

def _check_color_compliance (code : List Char) (tokens : DesignTokenSet) :
    List ValidationError :=
  (hexScan code).filterMap (colorHexCheck (tokens.colors.map (·.2)))

/-! ## Property-value scanner shared by the radius and font checks

Both checks use a regex of shape `LIT[:\s]+([^;"'`}]+)` (with `LIT` the
property name) via `re.findall`.  After the literal, the greedy
`[:\s]+` takes the maximal run of colons/whitespace; if the character
after the run is excluded from the capture class (or the text ends), the
engine backtracks one step and captures that single colon/whitespace
character — unless the run had length 1, in which case the match at this
start position fails and scanning resumes one character later. -/

def colonWs : List Char := ':' :: pyWs

def capExcl : List Char := [';', dqC, sqC, btC, cbC]

def propTail (afterLit : List Char) : Option (List Char × List Char) :=
  let k := (afterLit.takeWhile (colonWs.contains ·)).length
  if k == 0 then none
  else
    let afterRun := afterLit.drop k
    let cap := afterRun.takeWhile (fun c => !capExcl.contains c)
    if !cap.isEmpty then some (cap, afterRun.drop cap.length)
    else if 2 ≤ k then some ((afterLit.drop (k - 1)).take 1, afterRun)
    else none

def propScanGo (lit : List Char → Option (List Char)) :
    Nat → List Char → List (List Char)
  | 0, _ => []
  | _ + 1, [] => []
  | fuel + 1, c :: rest =>
      match lit (c :: rest) with
      | some afterLit =>
          match propTail afterLit with
          | some (cap, restAfter) => cap :: propScanGo lit fuel restAfter
          | none => propScanGo lit fuel rest
      | none => propScanGo lit fuel rest

def propScan (lit : List Char → Option (List Char)) (code : List Char) :
    List (List Char) :=
  propScanGo lit code.length code

/-- Literal matcher for `font-family`. -/
def fontLit (s : List Char) : Option (List Char) :=
  if "font-family".data.isPrefixOf s then some (s.drop 11) else none

/-- Literal matcher for `border-?[Rr]adius`. -/
def radiusLit (s : List Char) : Option (List Char) :=
  if "border".data.isPrefixOf s then
    let r1 := s.drop 6
    let r2 := if r1.head? == some '-' then r1.drop 1 else r1
    match r2 with
    | c :: r3 =>
        if (c == 'R' || c == 'r') && "adius".data.isPrefixOf r3 then some (r3.drop 5)
        else none
    | [] => none
  else none

/-- The captures of `re.findall(r"font-family[:\s]+([^;\"'`}]+)", code)`. -/
def fontMatches (code : List Char) : List (List Char) := propScan fontLit code

/-- The captures of `re.findall(r"border-?[Rr]adius[:\s]+([^;\"'`}]+)", code)`. -/
def radiusMatches (code : List Char) : List (List Char) := propScan radiusLit code

/-! ## Border-radius compliance (`_check_border_radius_compliance`) -/

/-- `re.match(r"^\d+px$", val)`: one or more digits followed by `px`. -/
def isPxVal (l : List Char) : Bool :=
  let ds := l.takeWhile (·.isDigit)
  !ds.isEmpty && l.drop ds.length == ['p', 'x']

def radiusMsg (val : List Char) (allowed_radii : List String) : String :=
  "border-radius " ++ aposS ++ String.mk val ++ aposS
    ++ " not in design system. Allowed px values: "
    ++ pyReprStrList
        (pySortedStr ((allowed_radii.eraseDups).filter (fun v => occursIn "px".data v.data)))

def _check_border_radius_compliance (code : List Char) (tokens : DesignTokenSet) :
    List ValidationError :=
  let allowed_radii := tokens.borders.map (·.2)
  (radiusMatches code).flatMap fun m =>
    (pySplitL (pyStripL m)).filterMap fun v0 =>
      let val := pyRstrip [';', ',', dqC, sqC] v0
      if isPxVal val && !(allowed_radii.map (·.data)).contains val then
        some ⟨"DESIGN_TOKEN_RADIUS", radiusMsg val allowed_radii, "warning"⟩
      else none

/-! ## Font compliance (`_check_font_compliance`) -/

def fontMsg (match_clean : List Char) : String :=
  "Font " ++ aposS ++ String.mk match_clean ++ aposS ++ " not in design system. Use "
    ++ aposS ++ "Inter" ++ aposS ++ " or " ++ aposS ++ "JetBrains Mono" ++ aposS

/-- The allowed-fonts list of `_check_font_compliance`: the token set's
two configured names plus the hardcoded literals `"Inter"` and
`"JetBrains Mono"`. -/
def allowedFonts (tokens : DesignTokenSet) : List String :=
  [tokens.typography.sans, tokens.typography.mono, "Inter", "JetBrains Mono"]

def _check_font_compliance (code : List Char) (tokens : DesignTokenSet) :
    List ValidationError :=
  (fontMatches code).filterMap fun m =>
    if (allowedFonts tokens).any (fun af => occursIn (lowerL af.data) (lowerL m)) then
      none
    else
      some ⟨"DESIGN_TOKEN_FONT",
        fontMsg (pyStripChars [sqC, dqC] (pyStripL m)), "warning"⟩

/-! ## Structural check and `validate_component` -/

/-- `re.search(r"export\s+class\s+\w+", code)` matching at the head of
`s`: the greedy `\s+` runs admit no backtracking because `class` cannot
start with whitespace and `\w` excludes whitespace. -/
def exportClassAt (s : List Char) : Bool :=
  if "export".data.isPrefixOf s then
    let r1 := s.drop 6
    let k := (r1.takeWhile (pyWs.contains ·)).length
    if k == 0 then false
    else
      let r2 := r1.drop k
      if "class".data.isPrefixOf r2 then
        let r3 := r2.drop 5
        let m := (r3.takeWhile (pyWs.contains ·)).length
        if m == 0 then false
        else
          match (r3.drop m).head? with
          | some c => isWordChar c
          | none => false
      else false
  else false

def hasExportClass : List Char → Bool
  | [] => false
  | c :: t => exportClassAt (c :: t) || hasExportClass t

def fenceMsg : String := "Code wrapped in markdown fences — output raw code only"

/-- The condition of check 6 of `validate_component`:
`code.strip().startswith("```") or "```" in code[:50]`. -/
def fenceCond (code : String) : Bool :=
  fenceStr.data.isPrefixOf (pyStripL code.data) || occursIn fenceStr.data (code.data.take 50)

/-- `validate_component(code, tokens)`: the four structural checks, then
bracket balance, color, border-radius and font compliance, then the
output-format check, findings in that order. -/
def validate_component (code : String) (tokens : DesignTokenSet) :
    List ValidationError :=
  let cs := code.data
  (if occursIn "@Component".data cs then []
   else [⟨"ANGULAR_STRUCTURE", "Missing @Component decorator", "error"⟩])
  ++ (if occursIn "selector:".data cs then []
      else [⟨"ANGULAR_STRUCTURE", "Missing selector in @Component", "error"⟩])
  ++ (if occursIn "template:".data cs || occursIn "templateUrl:".data cs then []
      else [⟨"ANGULAR_STRUCTURE", "Missing template in @Component", "error"⟩])
  ++ (if hasExportClass cs then []
      else [⟨"ANGULAR_STRUCTURE", "Missing exported class", "error"⟩])
  ++ _check_bracket_balance code
  ++ _check_color_compliance cs tokens
  ++ _check_border_radius_compliance cs tokens
  ++ _check_font_compliance cs tokens
  ++ (if fenceCond code then [⟨"OUTPUT_FORMAT", fenceMsg, "error"⟩] else [])

/-! ## Orchestrator (`run_pipeline`) -/

/-- The retry budget constant `MAX_RETRIES` of `architect.py`. -/
def MAX_RETRIES : Nat := 2

/-- Feedback synthesis of the retry loop, applied to the hard-error
subset of the findings (`hard_errors` in the Python). -/
def mkFeedback (hard_errors : List ValidationError) : String :=
  "VALIDATION ERRORS FROM LINTER:\n"
    ++ String.intercalate "\n" (hard_errors.map ValidationError.toStr)
    ++ "\n\nFix ALL errors above. Output ONLY the corrected raw TypeScript code."

/-- The `for attempt in range(max_retries + 1)` loop of `run_pipeline`.
`gen` abstracts `generate_component` (attempt index and feedback string
to candidate text); `remaining` is the number of retries still
available, so `attempt + remaining` is invariant along a run and equals
the budget.  Returns the final candidate, its findings, and the final
value of the loop variable `attempt`.  When `remaining = 0` the Python
loop ends after this iteration whether or not hard errors remain, with
the same returned data either way. -/
def pipelineLoop (gen : Nat → String → String) (tokens : DesignTokenSet) :
    Nat → Nat → String → String × List ValidationError × Nat
  | attempt, 0, feedback =>
      let code := gen attempt feedback
      let errors := validate_component code tokens
      (code, errors, attempt)
  | attempt, remaining + 1, feedback =>
      let code := gen attempt feedback
      let errors := validate_component code tokens
      let hard_errors := errors.filter (fun e => e.severity == "error")
      if hard_errors.isEmpty then (code, errors, attempt)
      else pipelineLoop gen tokens (attempt + 1) remaining (mkFeedback hard_errors)

/-- `PipelineResult`: the result dict of `run_pipeline`. -/
structure PipelineResult where
  code : String
  errors : List String
  warnings : List String
  hard_errors : List String
  attempts : Nat
  success : Bool
  prompt : String
deriving DecidableEq

/-- `run_pipeline`, with the generator abstracted as an oracle and the
retry budget (`MAX_RETRIES` in the source, where it is fixed to 2)
generalized to a parameter.  Prompt construction and the conversation
history only shape the oracle's behavior and are absorbed into `gen`. -/
def run_pipeline (gen : Nat → String → String) (tokens : DesignTokenSet)
    (user_prompt : String) (max_retries : Nat) : PipelineResult :=
  let out := pipelineLoop gen tokens 0 max_retries ""
  let code := out.1
  let all_errors := out.2.1
  let attempt := out.2.2
  { code := code
    errors := all_errors.map ValidationError.toStr
    warnings := (all_errors.filter (fun e => e.severity == "warning")).map ValidationError.toStr
    hard_errors := (all_errors.filter (fun e => e.severity == "error")).map ValidationError.toStr
    attempts := attempt + 1
    success := (all_errors.filter (fun e => e.severity == "error")).length == 0
    prompt := user_prompt }

/-- The feedback string in effect at a given attempt index of a run in
which every earlier attempt failed validation: empty for attempt 0,
otherwise synthesized from the hard errors of the previous attempt. -/
def attemptFeedback (gen : Nat → String → String) (tokens : DesignTokenSet) :
    Nat → String
  | 0 => ""
  | i + 1 =>
      mkFeedback ((validate_component (gen i (attemptFeedback gen tokens i)) tokens).filter
        (fun e => e.severity == "error"))

/-- Modelled from the spec: the font-compliance check as §4.3 words it —
a warning for every `font-family` value that does not case-insensitively
contain one of the **two configured** font names (no additional
hardcoded names).  Used only to compare the source's font check against
the spec's traceability invariant. -/
def fontCheckSpec (code : List Char) (tokens : DesignTokenSet) :
    List ValidationError :=
  (fontMatches code).filterMap fun m =>
    if [tokens.typography.sans, tokens.typography.mono].any
        (fun af => occursIn (lowerL af.data) (lowerL m)) then none
    else
      some ⟨"DESIGN_TOKEN_FONT",
        fontMsg (pyStripChars [sqC, dqC] (pyStripL m)), "warning"⟩


/-! ## Bracket-check theory

`bbLoop` is related to the pure stack machine `dyckScan` running on the
bracket characters outside string literals; balancedness is the standard
Dyck property over the three bracket kinds. -/

/-- How a `dyckScan` outcome determines the findings of the Python
scanner: a mismatch yields exactly the one unmatched-bracket error (at
some position), an empty final stack yields no findings, and a non-empty
final stack yields exactly the one unclosed-brackets error. -/
def agreesBB (out : DyckOut) (res : List ValidationError) : Prop :=
  match out with
  | .mismatch c => ∃ j, res = [⟨"SYNTAX", unmatchedMsg c j, "error"⟩]
  | .closed [] => res = []
  | .closed st => res = [⟨"SYNTAX", unclosedMsg st, "error"⟩]

theorem bbLoop_bridge (cs : List Char) (q : Option Char) (st : List Char) (i : Nat) :
    agreesBB (dyckScan (strippedBrackets cs q) st) (bbLoop cs q st i) := by
  induction cs, q, st, i using bbLoop.induct with
  | case1 q st i hst =>
    cases st with
    | nil => simp [strippedBrackets, dyckScan, bbLoop, agreesBB]
    | cons t ts => simp at hst
  | case2 q st i hst =>
    cases st with
    | nil => simp at hst
    | cons t ts => simp [strippedBrackets, dyckScan, bbLoop, agreesBB]
  | case3 c q st i hq ih =>
    simpa [strippedBrackets, bbLoop, hq] using ih
  | case4 c q st i hq ih =>
    simpa [strippedBrackets, bbLoop, hq] using ih
  | case5 c c2 cs q st i hesc ih =>
    simpa [strippedBrackets, bbLoop, hesc] using ih
  | case6 c c2 cs q st i hesc hq ih =>
    simpa [strippedBrackets, bbLoop, hesc, hq] using ih
  | case7 c c2 cs q st i hesc hq ih =>
    simpa [strippedBrackets, bbLoop, hesc, hq] using ih
  | case8 c cs st i hquote ih =>
    have h1 : c ∈ stringQuotes := by simpa using hquote
    simpa [strippedBrackets, bbLoop, h1] using ih
  | case9 c cs st i hquote hopen ih =>
    have h1 : c ∉ stringQuotes := by simpa using hquote
    have h2 : c ∈ opensL := by simpa using hopen
    simpa [strippedBrackets, dyckScan, bbLoop, h1, h2] using ih
  | case10 c cs st i hquote hopen hclose hbad =>
    have h1 : c ∉ stringQuotes := by simpa using hquote
    have h2 : c ∉ opensL := by simpa using hopen
    have h3 : c ∈ closesL := by simpa using hclose
    cases st with
    | nil =>
      simp [strippedBrackets, dyckScan, bbLoop, agreesBB, h1, h2, h3]
    | cons t ts =>
      have hbad2 : (t == pairOf c) = false := by
        rcases Bool.or_eq_true_iff.mp hbad with h | h
        · simp at h
        · simp only [List.head?, bne_iff_ne, ne_eq, Option.some.injEq] at h
          simpa using h
      have ht : ¬ t = pairOf c := by simpa using hbad2
      simp [strippedBrackets, dyckScan, bbLoop, agreesBB, h1, h2, h3, ht]
  | case11 c cs st i hquote hopen hclose hok ih =>
    have h1 : c ∉ stringQuotes := by simpa using hquote
    have h2 : c ∉ opensL := by simpa using hopen
    have h3 : c ∈ closesL := by simpa using hclose
    simp only [Bool.or_eq_true, not_or, Bool.not_eq_true] at hok
    obtain ⟨hne, hhead⟩ := hok
    cases st with
    | nil => simp at hne
    | cons t ts =>
      have ht : t = pairOf c := by
        simp only [List.head?, bne_eq_false_iff_eq, Option.some.injEq] at hhead
        exact hhead
      subst ht
      simpa [strippedBrackets, dyckScan, bbLoop, h1, h2, h3, List.tail] using ih
  | case12 c cs st i hquote hopen hclose ih =>
    have h1 : c ∉ stringQuotes := by simpa using hquote
    have h2 : c ∉ opensL := by simpa using hopen
    have h3 : c ∉ closesL := by simpa using hclose
    simpa [strippedBrackets, dyckScan, bbLoop, h1, h2, h3] using ih

theorem dyckScan_append (a b : List Char) (st : List Char) :
    dyckScan (a ++ b) st =
      match dyckScan a st with
      | .closed s => dyckScan b s
      | .mismatch c => .mismatch c := by
  induction a generalizing st with
  | nil => simp [dyckScan]
  | cons c cs ih =>
    simp only [List.cons_append, dyckScan]
    by_cases hc : c ∈ opensL
    · simp [hc, ih]
    · cases st with
      | nil => simp [hc]
      | cons t ts =>
        by_cases ht : t = pairOf c
        · simp [hc, ht, ih]
        · simp [hc, ht]

theorem balanced_dyckScan {bs : List Char} (h : BalancedBr bs) :
    ∀ st, dyckScan bs st = .closed st := by
  induction h with
  | nil => intro st; rfl
  | node hc _ _ iha ihb =>
    intro st
    rename_i c a b _ _
    have hc3 : c = '(' ∨ c = obC ∨ c = '[' := by simpa [opensL] using hc
    have hnotopen : closeOf c ∉ opensL := by
      rcases hc3 with rfl | rfl | rfl <;> decide
    have hpair : pairOf (closeOf c) = c := by
      rcases hc3 with rfl | rfl | rfl <;> rfl
    have hcont : opensL.contains c = true := by
      rcases hc3 with rfl | rfl | rfl <;> rfl
    simp only [dyckScan, hcont, if_true, List.append_eq]
    rw [dyckScan_append, iha (c :: st)]
    simp [dyckScan, hnotopen, hpair, ihb]

/-- Every finding the bracket check can produce has rule `SYNTAX` and
severity `error`. -/
theorem bracket_check_rules (code : String) :
    ∀ e ∈ _check_bracket_balance code, e.rule = "SYNTAX" ∧ e.severity = "error" := by
  intro e he
  have hb := bbLoop_bridge code.data none [] 0
  rw [show bbLoop code.data none [] 0 = _check_bracket_balance code from rfl] at hb
  cases hout : dyckScan (strippedBrackets code.data none) [] with
  | mismatch c =>
    rw [hout] at hb
    obtain ⟨j, hj⟩ := hb
    rw [hj] at he
    simp at he
    rw [he]
    exact ⟨rfl, rfl⟩
  | closed s =>
    rw [hout] at hb
    cases s with
    | nil => simp only [agreesBB] at hb; rw [hb] at he; simp at he
    | cons t ts =>
      simp only [agreesBB] at hb
      rw [hb] at he
      simp at he
      rw [he]
      exact ⟨rfl, rfl⟩

/-! ## Rule and severity of each check's findings -/

theorem color_check_rules (code : List Char) (t : DesignTokenSet) :
    ∀ e ∈ _check_color_compliance code t,
      e.rule = "DESIGN_TOKEN_COLOR" ∧ e.severity = "error" := by
  intro e he
  simp only [_check_color_compliance, List.mem_filterMap] at he
  obtain ⟨a, _, ha⟩ := he
  simp only [colorHexCheck] at ha
  split at ha <;> split at ha <;>
    first
      | (rw [Option.some.injEq] at ha; rw [← ha]; exact ⟨rfl, rfl⟩)
      | exact absurd ha (by simp)

theorem radius_check_rules (code : List Char) (t : DesignTokenSet) :
    ∀ e ∈ _check_border_radius_compliance code t,
      e.rule = "DESIGN_TOKEN_RADIUS" ∧ e.severity = "warning" := by
  intro e he
  simp only [_check_border_radius_compliance, List.mem_flatMap, List.mem_filterMap] at he
  obtain ⟨m, _, v0, _, hv⟩ := he
  split at hv
  · rw [Option.some.injEq] at hv
    rw [← hv]
    exact ⟨rfl, rfl⟩
  · exact absurd hv (by simp)

theorem font_check_rules (code : List Char) (t : DesignTokenSet) :
    ∀ e ∈ _check_font_compliance code t,
      e.rule = "DESIGN_TOKEN_FONT" ∧ e.severity = "warning" := by
  intro e he
  simp only [_check_font_compliance, List.mem_filterMap] at he
  obtain ⟨m, _, hm⟩ := he
  split at hm
  · exact absurd hm (by simp)
  · rw [Option.some.injEq] at hm
    rw [← hm]
    exact ⟨rfl, rfl⟩

/-! ## Filtering `validate_component` by rule -/

theorem validate_filter_color (code : String) (t : DesignTokenSet) :
    (validate_component code t).filter (fun e => e.rule == "DESIGN_TOKEN_COLOR")
      = _check_color_compliance code.data t := by
  have hcolor : (_check_color_compliance code.data t).filter
      (fun e => e.rule == "DESIGN_TOKEN_COLOR") = _check_color_compliance code.data t :=
    List.filter_eq_self.mpr (fun e he => by
      have h := (color_check_rules code.data t e he).1
      simp [h])
  have hbr : (_check_bracket_balance code).filter
      (fun e => e.rule == "DESIGN_TOKEN_COLOR") = [] :=
    List.filter_eq_nil_iff.mpr (fun e he => by
      have h := (bracket_check_rules code e he).1
      simp [h])
  have hrad : (_check_border_radius_compliance code.data t).filter
      (fun e => e.rule == "DESIGN_TOKEN_COLOR") = [] :=
    List.filter_eq_nil_iff.mpr (fun e he => by
      have h := (radius_check_rules code.data t e he).1
      simp [h])
  have hfont : (_check_font_compliance code.data t).filter
      (fun e => e.rule == "DESIGN_TOKEN_COLOR") = [] :=
    List.filter_eq_nil_iff.mpr (fun e he => by
      have h := (font_check_rules code.data t e he).1
      simp [h])
  simp only [validate_component, List.filter_append, hcolor, hbr, hrad, hfont,
    apply_ite (List.filter (fun e : ValidationError => e.rule == "DESIGN_TOKEN_COLOR"))]
  simp

theorem validate_filter_font (code : String) (t : DesignTokenSet) :
    (validate_component code t).filter (fun e => e.rule == "DESIGN_TOKEN_FONT")
      = _check_font_compliance code.data t := by
  have hfont : (_check_font_compliance code.data t).filter
      (fun e => e.rule == "DESIGN_TOKEN_FONT") = _check_font_compliance code.data t :=
    List.filter_eq_self.mpr (fun e he => by
      have h := (font_check_rules code.data t e he).1
      simp [h])
  have hbr : (_check_bracket_balance code).filter
      (fun e => e.rule == "DESIGN_TOKEN_FONT") = [] :=
    List.filter_eq_nil_iff.mpr (fun e he => by
      have h := (bracket_check_rules code e he).1
      simp [h])
  have hrad : (_check_border_radius_compliance code.data t).filter
      (fun e => e.rule == "DESIGN_TOKEN_FONT") = [] :=
    List.filter_eq_nil_iff.mpr (fun e he => by
      have h := (radius_check_rules code.data t e he).1
      simp [h])
  have hcolor : (_check_color_compliance code.data t).filter
      (fun e => e.rule == "DESIGN_TOKEN_FONT") = [] :=
    List.filter_eq_nil_iff.mpr (fun e he => by
      have h := (color_check_rules code.data t e he).1
      simp [h])
  simp only [validate_component, List.filter_append, hfont, hbr, hrad, hcolor,
    apply_ite (List.filter (fun e : ValidationError => e.rule == "DESIGN_TOKEN_FONT"))]
  simp

theorem validate_filter_output_format (code : String) (t : DesignTokenSet) :
    (validate_component code t).filter (fun e => e.rule == "OUTPUT_FORMAT")
      = if fenceCond code then [⟨"OUTPUT_FORMAT", fenceMsg, "error"⟩] else [] := by
  have hbr : (_check_bracket_balance code).filter
      (fun e => e.rule == "OUTPUT_FORMAT") = [] :=
    List.filter_eq_nil_iff.mpr (fun e he => by
      have h := (bracket_check_rules code e he).1
      simp [h])
  have hrad : (_check_border_radius_compliance code.data t).filter
      (fun e => e.rule == "OUTPUT_FORMAT") = [] :=
    List.filter_eq_nil_iff.mpr (fun e he => by
      have h := (radius_check_rules code.data t e he).1
      simp [h])
  have hcolor : (_check_color_compliance code.data t).filter
      (fun e => e.rule == "OUTPUT_FORMAT") = [] :=
    List.filter_eq_nil_iff.mpr (fun e he => by
      have h := (color_check_rules code.data t e he).1
      simp [h])
  have hfont : (_check_font_compliance code.data t).filter
      (fun e => e.rule == "OUTPUT_FORMAT") = [] :=
    List.filter_eq_nil_iff.mpr (fun e he => by
      have h := (font_check_rules code.data t e he).1
      simp [h])
  simp only [validate_component, List.filter_append, hbr, hrad, hcolor, hfont,
    apply_ite (List.filter (fun e : ValidationError => e.rule == "OUTPUT_FORMAT"))]
  split <;> split <;> split <;> split <;> split <;> simp

/-! ## Orchestrator lemmas -/

/-- The loop's final findings are the validation of its final candidate,
and the final candidate was produced by the generator at the final
attempt index. -/
theorem pipelineLoop_spec (gen : Nat → String → String) (tok : DesignTokenSet) :
    ∀ (remaining attempt : Nat) (fb : String),
      (pipelineLoop gen tok attempt remaining fb).2.1 =
        validate_component (pipelineLoop gen tok attempt remaining fb).1 tok
      ∧ ∃ f, (pipelineLoop gen tok attempt remaining fb).1 =
          gen (pipelineLoop gen tok attempt remaining fb).2.2 f := by
  intro remaining
  induction remaining with
  | zero => intro attempt fb; exact ⟨rfl, fb, rfl⟩
  | succ r ih =>
    intro attempt fb
    simp only [pipelineLoop]
    split
    · exact ⟨rfl, fb, rfl⟩
    · exact ih (attempt + 1) _

/-- If the current attempt validates with no hard errors, the loop stops
at once, returning that attempt's data. -/
theorem pipelineLoop_first_success (gen : Nat → String → String) (tok : DesignTokenSet)
    (attempt remaining : Nat) (fb : String)
    (h : (validate_component (gen attempt fb) tok).filter
      (fun e => e.severity == "error") = []) :
    pipelineLoop gen tok attempt remaining fb =
      (gen attempt fb, validate_component (gen attempt fb) tok, attempt) := by
  cases remaining with
  | zero => rfl
  | succ r =>
    simp only [pipelineLoop]
    rw [if_pos (by rw [h]; rfl)]

/-- If every attempt up to the budget produces at least one hard error,
the loop runs through the whole budget, its feedback at attempt `i`
being `attemptFeedback gen tok i`. -/
theorem pipelineLoop_all_fail (gen : Nat → String → String) (tok : DesignTokenSet) :
    ∀ (remaining attempt : Nat),
      (∀ i, attempt ≤ i → i ≤ attempt + remaining →
        (validate_component (gen i (attemptFeedback gen tok i)) tok).filter
          (fun e => e.severity == "error") ≠ []) →
      pipelineLoop gen tok attempt remaining (attemptFeedback gen tok attempt) =
        (gen (attempt + remaining) (attemptFeedback gen tok (attempt + remaining)),
         validate_component
           (gen (attempt + remaining) (attemptFeedback gen tok (attempt + remaining))) tok,
         attempt + remaining) := by
  intro remaining
  induction remaining with
  | zero => intro attempt _; rfl
  | succ r ih =>
    intro attempt h
    have hfail := h attempt (Nat.le_refl _) (Nat.le_add_right _ _)
    simp only [pipelineLoop]
    rw [if_neg (by
      intro hemp
      exact hfail (List.isEmpty_iff.mp hemp))]
    have hfb : mkFeedback ((validate_component
          (gen attempt (attemptFeedback gen tok attempt)) tok).filter
            (fun e => e.severity == "error"))
        = attemptFeedback gen tok (attempt + 1) := rfl
    rw [hfb]
    have := ih (attempt + 1) (fun i h1 h2 => h i (Nat.le_of_succ_le h1)
      (by omega))
    rw [this]
    have harith : attempt + 1 + r = attempt + (r + 1) := by omega
    rw [harith]

/-! ## Concrete fixtures for witnesses -/

/-- A token set shaped like `design-system/tokens.json`. -/
def tokA : DesignTokenSet :=
  ⟨[("primary", "#6366f1"), ("secondary", "#06b6d4")],
   [("sm", "4px"), ("md", "8px")],
   ⟨"Inter", "JetBrains Mono"⟩⟩

/-- A token set whose configured fonts are unrelated to the hardcoded
`Inter` / `JetBrains Mono` literals. -/
def tokFontOther : DesignTokenSet :=
  ⟨[("primary", "#6366f1")], [], ⟨"Arial", "Courier New"⟩⟩

/-- A generator oracle that always returns the empty reply. -/
def genEmpty : Nat → String → String := fun _ _ => ""

/-- A generator oracle that always returns a structurally valid component. -/
def genGood : Nat → String → String :=
  fun _ _ => "@Component(selector: app-x, template: hi) export class X"

/-! ## Claims -/

/-- Claim C1: if every attempt up to and including the budget limit
produces at least one error-severity finding, the orchestrator performs
exactly budget+1 Generator invocations (the loop index reaches the
budget, and `attempts` counts one invocation per iteration) and returns a
`PipelineResult` with `success = false` carrying the last attempt's text
and diagnostics.  The embedding is a total function, so no exception can
be raised. -/
theorem c1_budget_exhaustion (gen : Nat → String → String) (tok : DesignTokenSet)
    (prompt : String) (budget : Nat)
    (h : ∀ i, i ≤ budget →
      (validate_component (gen i (attemptFeedback gen tok i)) tok).filter
        (fun e => e.severity == "error") ≠ []) :
    (run_pipeline gen tok prompt budget).attempts = budget + 1
    ∧ (run_pipeline gen tok prompt budget).success = false
    ∧ (run_pipeline gen tok prompt budget).code
        = gen budget (attemptFeedback gen tok budget)
    ∧ (run_pipeline gen tok prompt budget).errors
        = (validate_component (gen budget (attemptFeedback gen tok budget)) tok).map
            ValidationError.toStr := by
  have hloop : pipelineLoop gen tok 0 budget "" =
      (gen budget (attemptFeedback gen tok budget),
       validate_component (gen budget (attemptFeedback gen tok budget)) tok,
       budget) := by
    have := pipelineLoop_all_fail gen tok budget 0 (fun i _ h2 => h i (by omega))
    simpa [attemptFeedback] using this
  have hne := h budget (Nat.le_refl _)
  refine ⟨?_, ?_, ?_, ?_⟩ <;> simp only [run_pipeline, hloop]
  rw [beq_eq_false_iff_ne]
  simpa [List.length_eq_zero] using hne

/-- Claim C2: if the first attempt's validation yields zero error-severity
findings, exactly one Generator invocation occurs (`attempts = 1`),
whatever the configured retry budget; the result carries that first
attempt's text. -/
theorem c2_single_invocation (gen : Nat → String → String) (tok : DesignTokenSet)
    (prompt : String) (budget : Nat)
    (h : (validate_component (gen 0 "") tok).filter
      (fun e => e.severity == "error") = []) :
    (run_pipeline gen tok prompt budget).attempts = 1
    ∧ (run_pipeline gen tok prompt budget).code = gen 0 "" := by
  have hloop := pipelineLoop_first_success gen tok 0 budget "" h
  exact ⟨by simp [run_pipeline, hloop], by simp [run_pipeline, hloop]⟩

/-- Claim C3: the returned result's success flag is true iff the final
attempt's finding list has zero error-severity findings, and the result
carries the final candidate text (produced by the generator at the last
attempt index), the full finding list, the warning subset, the error
subset, the attempt count, and the original prompt. -/
theorem c3_result_contract (gen : Nat → String → String) (tok : DesignTokenSet)
    (prompt : String) (budget : Nat) :
    ((run_pipeline gen tok prompt budget).success = true ↔
        (run_pipeline gen tok prompt budget).hard_errors = [])
    ∧ (run_pipeline gen tok prompt budget).prompt = prompt
    ∧ ∃ fb, (run_pipeline gen tok prompt budget).code
          = gen ((run_pipeline gen tok prompt budget).attempts - 1) fb
        ∧ (run_pipeline gen tok prompt budget).errors
            = (validate_component (run_pipeline gen tok prompt budget).code tok).map
                ValidationError.toStr
        ∧ (run_pipeline gen tok prompt budget).warnings
            = ((validate_component (run_pipeline gen tok prompt budget).code tok).filter
                (fun e => e.severity == "warning")).map ValidationError.toStr
        ∧ (run_pipeline gen tok prompt budget).hard_errors
            = ((validate_component (run_pipeline gen tok prompt budget).code tok).filter
                (fun e => e.severity == "error")).map ValidationError.toStr := by
  obtain ⟨hes, f, hf⟩ := pipelineLoop_spec gen tok budget 0 ""
  refine ⟨?_, rfl, f, ?_, ?_, ?_, ?_⟩
  · simp only [run_pipeline]
    rw [beq_iff_eq, List.length_eq_zero, List.map_eq_nil_iff]
  · simp only [run_pipeline, Nat.add_sub_cancel]
    exact hf
  · simp only [run_pipeline]
    rw [hes]
  · simp only [run_pipeline]
    rw [hes]
  · simp only [run_pipeline]
    rw [hes]

/-- Claim C4: the corrective feedback synthesized after an attempt with
both error- and warning-severity findings is built only from the
error-severity findings' string forms plus the fix directive, and no
warning-severity finding's string form occurs among the strings joined
into it (every joined string starts `[ERROR]`, a warning's starts
`[WARNING]`).  Warnings alone never cause a retry: the loop's retry
branch is guarded by the error subset being non-empty
(`pipelineLoop_first_success`). -/
theorem c4_feedback_error_driven (E : List ValidationError)
    (_he : ∃ e ∈ E, e.severity = "error") (_hw : ∃ w ∈ E, w.severity = "warning") :
    mkFeedback (E.filter (fun e => e.severity == "error"))
      = "VALIDATION ERRORS FROM LINTER:\n"
        ++ String.intercalate "\n"
            ((E.filter (fun e => e.severity == "error")).map ValidationError.toStr)
        ++ "\n\nFix ALL errors above. Output ONLY the corrected raw TypeScript code."
    ∧ ∀ w ∈ E, w.severity = "warning" →
        ValidationError.toStr w ∉
          (E.filter (fun e => e.severity == "error")).map ValidationError.toStr := by
  refine ⟨rfl, ?_⟩
  intro w hwE hsev hmem
  rw [List.mem_map] at hmem
  obtain ⟨e, heF, heq⟩ := hmem
  rw [List.mem_filter] at heF
  have hesev : e.severity = "error" := by simpa using heF.2
  have h1 : (ValidationError.toStr e).data[1]? = some 'E' := by
    simp only [ValidationError.toStr]
    rw [hesev, show "[" ++ upperStr "error" ++ "] " = "[ERROR] " by decide,
      String.data_append, String.data_append, String.data_append]
    rw [List.getElem?_append_left (by
          rw [List.length_append, List.length_append]
          have h8 : ("[ERROR] ".data).length = 8 := rfl
          omega),
        List.getElem?_append_left (by
          rw [List.length_append]
          have h8 : ("[ERROR] ".data).length = 8 := rfl
          omega),
        List.getElem?_append_left (by
          have h8 : ("[ERROR] ".data).length = 8 := rfl
          omega)]
    rfl
  have h2 : (ValidationError.toStr w).data[1]? = some 'W' := by
    simp only [ValidationError.toStr]
    rw [hsev, show "[" ++ upperStr "warning" ++ "] " = "[WARNING] " by decide,
      String.data_append, String.data_append, String.data_append]
    rw [List.getElem?_append_left (by
          rw [List.length_append, List.length_append]
          have h10 : ("[WARNING] ".data).length = 10 := rfl
          omega),
        List.getElem?_append_left (by
          rw [List.length_append]
          have h10 : ("[WARNING] ".data).length = 10 := rfl
          omega),
        List.getElem?_append_left (by
          have h10 : ("[WARNING] ".data).length = 10 := rfl
          omega)]
    rfl
  rw [heq, h2] at h1
  exact absurd (Option.some.inj h1) (by decide)

/-- Claim C5 counterexample: the claim says every comparison value of
every Validator check is drawn from the token set passed in.  The font
check refutes this: with a token set configuring the fonts `Arial` and
`Courier New`, a candidate declaring `font-family: Inter;` receives no
finding from the source's `_check_font_compliance` — the hardcoded
literal `"Inter"` (not traceable to the token set) is what accepts it —
whereas the check as the spec words it (`fontCheckSpec`, comparing only
against the two configured names) does flag it. -/
theorem c5_counterexample :
    _check_font_compliance "font-family: Inter;".data tokFontOther = []
    ∧ fontCheckSpec "font-family: Inter;".data tokFontOther ≠ [] := by
  constructor
  · decide
  · decide

/-- Claim C5, amended: each comparison value used by the color check is
drawn from the token set's color values, and by the radius check from
its border values (each check is a function of only that part of the
token set); the font check depends only on the token set's typography —
but additionally accepts the fixed literals `Inter` and
`JetBrains Mono` unconditionally, which are not traceable to the token
set (last conjunct: `font-family: Inter;` passes under every token
set). -/
theorem c5_amended_traceability :
    (∀ (code : List Char) (t1 t2 : DesignTokenSet), t1.colors = t2.colors →
        _check_color_compliance code t1 = _check_color_compliance code t2)
    ∧ (∀ (code : List Char) (t1 t2 : DesignTokenSet), t1.borders = t2.borders →
        _check_border_radius_compliance code t1 = _check_border_radius_compliance code t2)
    ∧ (∀ (code : List Char) (t1 t2 : DesignTokenSet), t1.typography = t2.typography →
        _check_font_compliance code t1 = _check_font_compliance code t2)
    ∧ (∀ t : DesignTokenSet, _check_font_compliance "font-family: Inter;".data t = []) := by
  refine ⟨?_, ?_, ?_, ?_⟩
  · intro code t1 t2 h
    simp only [_check_color_compliance, h]
  · intro code t1 t2 h
    simp only [_check_border_radius_compliance, h]
  · intro code t1 t2 h
    simp only [_check_font_compliance, allowedFonts, h]
  · intro t
    have hm : fontMatches "font-family: Inter;".data = [['I', 'n', 't', 'e', 'r']] := rfl
    simp only [_check_font_compliance, hm, List.filterMap_cons, List.filterMap_nil]
    have hIn : occursIn (lowerL "Inter".data) (lowerL ['I', 'n', 't', 'e', 'r']) = true := by
      decide
    have hany : (allowedFonts t).any
        (fun af => occursIn (lowerL af.data) (lowerL ['I', 'n', 't', 'e', 'r'])) = true := by
      apply List.any_eq_true.mpr
      exact ⟨"Inter", by simp [allowedFonts], hIn⟩
    rw [hany]
    rfl

/-- The token set of the spec's color example: only color `#6366f1`. -/
def tokC6 : DesignTokenSet :=
  ⟨[("primary", "#6366f1")], [], ⟨"Inter", "JetBrains Mono"⟩⟩

/-- Claim C6: the color check is case-insensitive and normalizes 3-digit
hex to 6-digit by digit duplication, so `#FFF` and `#ffffff` produce the
same number of color findings against every token set; against a token
set whose only color is `#6366f1`, `color: #123456;` yields exactly one
error-severity `DESIGN_TOKEN_COLOR` finding and `color: #6366f1;` yields
zero color findings. -/
theorem c6_color_normalization :
    (∀ t : DesignTokenSet,
      ((validate_component "color: #FFF;" t).filter
          (fun e => e.rule == "DESIGN_TOKEN_COLOR")).length
        = ((validate_component "color: #ffffff;" t).filter
            (fun e => e.rule == "DESIGN_TOKEN_COLOR")).length)
    ∧ (validate_component "color: #123456;" tokC6).filter
        (fun e => e.rule == "DESIGN_TOKEN_COLOR")
        = [⟨"DESIGN_TOKEN_COLOR", colorMsg "#123456".data ["#6366f1"], "error"⟩]
    ∧ (validate_component "color: #6366f1;" tokC6).filter
        (fun e => e.rule == "DESIGN_TOKEN_COLOR") = [] := by
  refine ⟨?_, by decide, by decide⟩
  intro t
  rw [validate_filter_color, validate_filter_color]
  have h1 : hexScan "color: #FFF;".data = [['F', 'F', 'F']] := rfl
  have h2 : hexScan "color: #ffffff;".data = [['f', 'f', 'f', 'f', 'f', 'f']] := rfl
  simp only [_check_color_compliance, h1, h2, List.filterMap_cons, List.filterMap_nil]
  have hiso : ∀ A : List String,
      (colorHexCheck A ['F', 'F', 'F']).isNone
        = (colorHexCheck A ['f', 'f', 'f', 'f', 'f', 'f']).isNone := by
    intro A
    simp only [colorHexCheck]
    have k1 : lowerL (if (['F', 'F', 'F'] : List Char).length == 3 then
        '#' :: (['F', 'F', 'F'] : List Char).flatMap (fun c => [c, c])
        else '#' :: ['F', 'F', 'F']) = "#ffffff".data := by decide
    have k2 : lowerL (if (['f', 'f', 'f', 'f', 'f', 'f'] : List Char).length == 3 then
        '#' :: (['f', 'f', 'f', 'f', 'f', 'f'] : List Char).flatMap (fun c => [c, c])
        else '#' :: ['f', 'f', 'f', 'f', 'f', 'f']) = "#ffffff".data := by decide
    rw [k1, k2]
    cases hc : (A.map (fun c => lowerL c.data)).contains "#ffffff".data <;> simp [hc]
  have := hiso (t.colors.map (·.2))
  cases hx : colorHexCheck (t.colors.map (·.2)) ['F', 'F', 'F'] with
  | none =>
    rw [hx] at this
    cases hy : colorHexCheck (t.colors.map (·.2)) ['f', 'f', 'f', 'f', 'f', 'f'] with
    | none => simp [hx, hy]
    | some w => rw [hy] at this; simp at this
  | some v =>
    rw [hx] at this
    cases hy : colorHexCheck (t.colors.map (·.2)) ['f', 'f', 'f', 'f', 'f', 'f'] with
    | none => rw [hy] at this; simp at this
    | some w => simp [hx, hy]

/-- Claim C7: on any text whose brackets (outside string literals, per
the check's own quote state machine) form a balanced Dyck sequence, the
bracket check yields zero findings; a closing bracket following a
balanced prefix is unmatched and yields exactly one error-severity
finding, aborting the rest of the bracket scan; a text whose bracket
sequence is a balanced part, one extra opening brace, and another
balanced part — i.e. exactly one unclosed brace — yields exactly one
unclosed-brackets error finding listing that brace. -/
theorem c7_bracket_balance :
    (∀ code : String, BalancedBr (bracketsOf code) → _check_bracket_balance code = [])
    ∧ (∀ (code : String) (l : List Char) (c : Char) (rest : List Char),
        bracketsOf code = l ++ c :: rest → BalancedBr l → c ∈ closesL →
        ∃ j, _check_bracket_balance code = [⟨"SYNTAX", unmatchedMsg c j, "error"⟩])
    ∧ (∀ (code : String) (l r : List Char),
        bracketsOf code = l ++ obC :: r → BalancedBr l → BalancedBr r →
        _check_bracket_balance code = [⟨"SYNTAX", unclosedMsg [obC], "error"⟩]) := by
  have hbridge : ∀ code : String,
      agreesBB (dyckScan (bracketsOf code) []) (_check_bracket_balance code) :=
    fun code => bbLoop_bridge code.data none [] 0
  refine ⟨?_, ?_, ?_⟩
  · intro code hbal
    have h := hbridge code
    rw [balanced_dyckScan hbal] at h
    exact h
  · intro code l c rest heq hbal hc
    have hop : c ∉ opensL := by
      rcases (show c = ')' ∨ c = cbC ∨ c = ']' by simpa [closesL] using hc) with
        rfl | rfl | rfl <;> decide
    have hm : dyckScan (bracketsOf code) [] = DyckOut.mismatch c := by
      rw [heq, dyckScan_append, balanced_dyckScan hbal]
      simp [dyckScan, hop]
    have h := hbridge code
    rw [hm] at h
    exact h
  · intro code l r heq hl hr
    have hm : dyckScan (bracketsOf code) [] = DyckOut.closed [obC] := by
      rw [heq, dyckScan_append, balanced_dyckScan hl]
      have hob : obC ∈ opensL := by decide
      simp [dyckScan, hob, balanced_dyckScan hr]
    have h := hbridge code
    rw [hm] at h
    exact h

/-- Claim C8: the Validator yields exactly one error-severity
`OUTPUT_FORMAT` finding when the candidate, stripped of surrounding
whitespace, starts with a markdown fence marker or a fence marker occurs
within the first 50 characters, and yields none otherwise; no other
check ever produces an `OUTPUT_FORMAT` finding. -/
theorem c8_output_format (code : String) (t : DesignTokenSet) :
    (validate_component code t).filter (fun e => e.rule == "OUTPUT_FORMAT")
      = if fenceCond code then [⟨"OUTPUT_FORMAT", fenceMsg, "error"⟩] else [] :=
  validate_filter_output_format code t

/-- Claim C9: whenever every `font-family` declaration value of a
candidate case-insensitively contains `Inter` or `JetBrains Mono`, the
Validator produces no font-compliance finding — for every token set,
even one whose configured typography names are entirely different,
because these two names are hardcoded into the allowed list. -/
theorem c9_hardcoded_fonts (t : DesignTokenSet) (code : String)
    (h : ∀ m ∈ fontMatches code.data,
        occursIn (lowerL "Inter".data) (lowerL m) = true
        ∨ occursIn (lowerL "JetBrains Mono".data) (lowerL m) = true) :
    (validate_component code t).filter (fun e => e.rule == "DESIGN_TOKEN_FONT") = [] := by
  rw [validate_filter_font]
  simp only [_check_font_compliance]
  apply List.filterMap_eq_nil_iff.mpr
  intro m hm
  have hany : (allowedFonts t).any
      (fun af => occursIn (lowerL af.data) (lowerL m)) = true := by
    apply List.any_eq_true.mpr
    rcases h m hm with hI | hJ
    · exact ⟨"Inter", by simp [allowedFonts], hI⟩
    · exact ⟨"JetBrains Mono", by simp [allowedFonts], hJ⟩
  simp [hany]

/-- Claim C10: on the empty candidate text the Validator returns, for
every token set, exactly the four error-severity `ANGULAR_STRUCTURE`
findings (missing decorator, selector, template, exported class) and
nothing else; since these are hard errors, an empty reply can never
be a success. -/
theorem c10_empty_reply (t : DesignTokenSet) :
    validate_component "" t =
      [⟨"ANGULAR_STRUCTURE", "Missing @Component decorator", "error"⟩,
       ⟨"ANGULAR_STRUCTURE", "Missing selector in @Component", "error"⟩,
       ⟨"ANGULAR_STRUCTURE", "Missing template in @Component", "error"⟩,
       ⟨"ANGULAR_STRUCTURE", "Missing exported class", "error"⟩] := rfl

/-! ## Witnesses -/

/-- Same colors and borders as `tokA`, different typography. -/
def tokB : DesignTokenSet :=
  ⟨[("primary", "#6366f1"), ("secondary", "#06b6d4")],
   [("sm", "4px"), ("md", "8px")],
   ⟨"Arial", "Courier New"⟩⟩

/-- One hard error and one warning, for exercising feedback synthesis. -/
def sampleFindings : List ValidationError :=
  [⟨"SYNTAX", "m1", "error"⟩, ⟨"DESIGN_TOKEN_FONT", "m2", "warning"⟩]

/-- A text containing exactly one unclosed opening brace. -/
def braceText : String := String.mk ['a', 'b', obC, 'c', 'd']

theorem c1_budget_exhaustion_witness :
    (run_pipeline genEmpty tokA "a card" 2).attempts = 3
    ∧ (run_pipeline genEmpty tokA "a card" 2).success = false
    ∧ (run_pipeline genEmpty tokA "a card" 2).code
        = genEmpty 2 (attemptFeedback genEmpty tokA 2)
    ∧ (run_pipeline genEmpty tokA "a card" 2).errors
        = (validate_component (genEmpty 2 (attemptFeedback genEmpty tokA 2)) tokA).map
            ValidationError.toStr :=
  c1_budget_exhaustion genEmpty tokA "a card" 2 (fun i _ => by
    show (validate_component "" tokA).filter (fun e => e.severity == "error") ≠ []
    decide)

theorem c2_single_invocation_witness :
    (run_pipeline genGood tokA "a card" 2).attempts = 1
    ∧ (run_pipeline genGood tokA "a card" 2).code = genGood 0 "" :=
  c2_single_invocation genGood tokA "a card" 2 (by decide)

theorem c4_feedback_error_driven_witness :
    mkFeedback (sampleFindings.filter (fun e => e.severity == "error"))
      = "VALIDATION ERRORS FROM LINTER:\n"
        ++ String.intercalate "\n"
            ((sampleFindings.filter (fun e => e.severity == "error")).map
              ValidationError.toStr)
        ++ "\n\nFix ALL errors above. Output ONLY the corrected raw TypeScript code."
    ∧ ∀ w ∈ sampleFindings, w.severity = "warning" →
        ValidationError.toStr w ∉
          (sampleFindings.filter (fun e => e.severity == "error")).map
            ValidationError.toStr :=
  c4_feedback_error_driven sampleFindings
    ⟨⟨"SYNTAX", "m1", "error"⟩, by decide, rfl⟩
    ⟨⟨"DESIGN_TOKEN_FONT", "m2", "warning"⟩, by decide, rfl⟩

theorem c5_amended_traceability_witness :
    (_check_color_compliance "color: #123456;".data tokA
      = _check_color_compliance "color: #123456;".data tokB)
    ∧ (_check_border_radius_compliance "border-radius: 3px;".data tokA
        = _check_border_radius_compliance "border-radius: 3px;".data tokB)
    ∧ (_check_font_compliance "font-family: Arial;".data tokA
        = _check_font_compliance "font-family: Arial;".data tokC6)
    ∧ _check_font_compliance "font-family: Inter;".data tokFontOther = [] :=
  ⟨c5_amended_traceability.1 "color: #123456;".data tokA tokB rfl,
   c5_amended_traceability.2.1 "border-radius: 3px;".data tokA tokB rfl,
   c5_amended_traceability.2.2.1 "font-family: Arial;".data tokA tokC6 rfl,
   c5_amended_traceability.2.2.2 tokFontOther⟩

theorem c7_bracket_balance_witness :
    _check_bracket_balance "a(b)c" = []
    ∧ (∃ j, _check_bracket_balance "x)y(" = [⟨"SYNTAX", unmatchedMsg ')' j, "error"⟩])
    ∧ _check_bracket_balance braceText = [⟨"SYNTAX", unclosedMsg [obC], "error"⟩] :=
  ⟨c7_bracket_balance.1 "a(b)c"
      (BalancedBr.node (c := '(') (by decide) BalancedBr.nil BalancedBr.nil),
   c7_bracket_balance.2.1 "x)y(" [] ')' ['('] rfl BalancedBr.nil (by decide),
   c7_bracket_balance.2.2 braceText [] [] rfl BalancedBr.nil BalancedBr.nil⟩

theorem c9_hardcoded_fonts_witness :
    (validate_component "font-family: Inter;" tokFontOther).filter
      (fun e => e.rule == "DESIGN_TOKEN_FONT") = [] :=
  c9_hardcoded_fonts tokFontOther "font-family: Inter;" (by decide)
